import Mathlib

/-!
Verification of the key-based column merge in `Pyhton scripts/s1.py`
(Rajaravi99/Threat_Detection_logic).

The script performs a VLOOKUP-like merge between two spreadsheet tables:
it normalizes a key column, builds a lookup index from the source table
(first non-null value per normalized key, in row order), and writes the
looked-up values into a target column of the destination table, either
overwriting or filling only blank cells.

The embedding below models tables column-oriented, the way pandas stores
DataFrames: a table is an ordered association list from column name to the
ordered list of that column cells. Cell values are the tagged variant
{string, number, blank/NaN}. Machine-level details of pandas that matter
to the claims are modelled explicitly: `astype(str)` renders the NaN
marker as the text "nan", `isna` is true only for the NaN marker, and
`groupby(...).first()` picks the first non-null value of each group in
original row order. Python `str.casefold` is modelled as `String.toLower`
(the two agree on the ASCII data involved here).
-/

namespace S1

/-- A scalar cell value of a sheet: a string, a number, or the blank/NaN
marker pandas uses for empty cells. -/
inductive Value where
  | str : String → Value
  | num : Int → Value
  | blank : Value
deriving Repr, DecidableEq

/-- pandas `isna`: only the NaN marker is missing; strings, including the
text "nan", are not. -/
def Value.isNA : Value → Bool
  | .blank => true
  | _ => false

/-- `Series.astype(str)` cell rendering: strings are kept, numbers are
printed, and the NaN marker renders as the text "nan". -/
def Value.toStr : Value → String
  | .str s => s
  | .num n => toString n
  | .blank => "nan"

/-- Python `str.strip()`: drop leading and trailing whitespace. -/
def strTrim (s : String) : String :=
  String.mk (((s.data.dropWhile Char.isWhitespace).reverse.dropWhile Char.isWhitespace).reverse)

/-- Python `str.casefold()`, modelled as per-character lowercasing (the
two agree on the ASCII data involved here). -/
def strLower (s : String) : String := String.mk (s.data.map Char.toLower)

/-- s1.py lines 15-17: `series.astype(str).str.strip().str.casefold()`,
per cell: render to string, trim surrounding whitespace, case-fold. -/
def normalize_key (v : Value) : String := strLower (strTrim v.toStr)

/-- A sheet held in memory, column-oriented like a pandas DataFrame:
an ordered association list from column name to that column list of cells.
Row `i` of the table is the family of entries at position `i` of every
column. -/
structure Table where
  cols : List (String × List Value)
deriving Repr, DecidableEq

/-- `df.columns`: the ordered column names. -/
def Table.columns (t : Table) : List String := t.cols.map Prod.fst

/-- `c in df.columns`. -/
def Table.hasCol (t : Table) (c : String) : Bool :=
  t.cols.any (fun p => p.1 == c)

/-- `df[c]` read: the cell list of the first column named `c`
(empty when the column is absent; the script only reads validated or
just-created columns). -/
def Table.getCol (t : Table) (c : String) : List Value :=
  match t.cols.find? (fun p => p.1 == c) with
  | some p => p.2
  | none => []

/-- `df[c] = xs` write: replace the column in place when present,
otherwise append it at the end, exactly as pandas column assignment. -/
def Table.setCol (t : Table) (c : String) (xs : List Value) : Table :=
  if t.hasCol c then
    Table.mk (t.cols.map (fun p => if p.1 == c then (c, xs) else p))
  else Table.mk (t.cols ++ [(c, xs)])

/-- `len(df)`: the row count, read off the first column (a DataFrame is
rectangular, see `Table.WF`). -/
def Table.nrows (t : Table) : Nat :=
  match t.cols with
  | [] => 0
  | p :: _ => p.2.length

/-- Well-formedness of a DataFrame: column names are unique and every
column has the same length. -/
def Table.WF (t : Table) : Prop :=
  t.columns.Nodup ∧ ∀ p ∈ t.cols, p.2.length = t.nrows

instance (t : Table) : Decidable t.WF :=
  inferInstanceAs (Decidable (t.columns.Nodup ∧ ∀ p ∈ t.cols, p.2.length = t.nrows))

/-- The merge-relevant command line options of s1.py (lines 24-38):
column selectors and the fill policy flag. -/
structure MergeArgs where
  key_a : String
  source_a : String
  key_b : String
  target_b : String
  only_fill_empty : Bool
deriving Repr, DecidableEq

/-- The match statistics printed at line 90: `Matched {matches}/{total}`. -/
structure MatchStats where
  matched : Nat
  total : Nat
deriving Repr, DecidableEq

/-- s1.py lines 58-63: the column validation loop; the first missing
column aborts the run via `sys.exit` before any row level work. -/
def validateColumns (a : MergeArgs) (df_a df_b : Table) : Except String Unit :=
  if !(df_a.hasCol a.key_a) then
    Except.error ("ERROR: Column " ++ a.key_a ++ " (from key-a) not found in its sheet.")
  else if !(df_a.hasCol a.source_a) then
    Except.error ("ERROR: Column " ++ a.source_a ++ " (from source-a) not found in its sheet.")
  else if !(df_b.hasCol a.key_b) then
    Except.error ("ERROR: Column " ++ a.key_b ++ " (from key-b) not found in its sheet.")
  else Except.ok ()

/-- s1.py line 66: `df_a["_key_norm_"] = normalize_key(df_a[key_a])` —
the source frame itself gains (or has overwritten) a helper column with
the normalized keys. -/
def addKeyNorm (df_a : Table) (key_a : String) : Table :=
  df_a.setCol "_key_norm_" ((df_a.getCol key_a).map (fun v => Value.str (normalize_key v)))

/-- `groupby(keys)[vals].first()` read through `.map`: for a normalized
key `k`, the first non-null value whose row key equals `k`, in original
row order (`none` both when the key is absent and when every value of the
group is null; pandas renders both as NaN after `.map`). -/
def groupFirst : List String → List Value → String → Option Value
  | k0 :: ks, v0 :: vs, k =>
      if k0 == k && !v0.isNA then some v0 else groupFirst ks vs k
  | _, _, _ => none

/-- s1.py lines 66-68: the lookup mapping
`df_a.groupby("_key_norm_")[source_a].first()`, built on the frame
mutated by `addKeyNorm`. -/
def buildMapping (df_a : Table) (key_a source_a : String) (k : String) : Option Value :=
  groupFirst (((addKeyNorm df_a key_a).getCol "_key_norm_").map Value.toStr)
    ((addKeyNorm df_a key_a).getCol source_a) k

/-- s1.py lines 71-72: `normalize_key(df_b[key_b]).map(mapping)` —
one looked-up value per destination row, NaN when the key has no
non-null source value. -/
def matchedValues (df_a df_b : Table) (a : MergeArgs) : List Value :=
  ((df_b.getCol a.key_b).map normalize_key).map
    (fun k => (buildMapping df_a a.key_a a.source_a k).getD Value.blank)

/-- s1.py lines 76-77: create the target column, filled with the blank
marker, when it does not exist yet. -/
def ensureTarget (df_b : Table) (target_b : String) : Table :=
  if df_b.hasCol target_b then df_b
  else df_b.setCol target_b (List.replicate df_b.nrows Value.blank)

/-- s1.py line 81: a destination target cell counts as blank when it is
NaN or its string rendering trims to the empty string. -/
def isBlankCell (v : Value) : Bool := v.isNA || (strTrim v.toStr == "")

/-- s1.py lines 79-85 with the branch condition read as the flag the
parser declares (`only_fill_empty`): either fill only blank target cells
from the matched values, or overwrite the whole column. -/
def applyFill (only_fill_empty : Bool) (target matched : List Value) : List Value :=
  if only_fill_empty then
    List.zipWith (fun t m => if isBlankCell t then m else t) target matched
  else matched

/-- s1.py lines 58-90 with line 79 read as the evident intent
`args.only_fill_empty` (the flag declared at lines 35-36): validate
columns, build the lookup, apply the fill policy to the target column and
report the match statistics. Compare `mainMergeActual` for the code
exactly as written. -/
def mainMerge (a : MergeArgs) (df_a df_b : Table) : Except String (Table × MatchStats) :=
  match validateColumns a df_a df_b with
  | Except.error e => Except.error e
  | Except.ok _ =>
    Except.ok
      ((ensureTarget df_b a.target_b).setCol a.target_b
        (applyFill a.only_fill_empty ((ensureTarget df_b a.target_b).getCol a.target_b)
          (matchedValues df_a df_b a)),
       MatchStats.mk ((matchedValues df_a df_b a).filter (fun v => !v.isNA)).length df_b.nrows)

/-- s1.py lines 58-90 exactly as written: line 79 reads
`args.only-fill-empty`, which Python parses as the subtraction
`args.only - fill - empty`; the parsed options namespace has no attribute
`only`, so evaluating the branch condition raises AttributeError on every
run that passes column validation — after the helper key column has been
added to the source frame (line 66) and the target column has been
created in the destination when missing (lines 76-77), but before any
target cell is written and before the statistics of lines 87-90. -/
def mainMergeActual (a : MergeArgs) (df_a df_b : Table) : Except String (Table × MatchStats) :=
  match validateColumns a df_a df_b with
  | Except.error e => Except.error e
  | Except.ok _ =>
    Except.error "AttributeError: Namespace object has no attribute only"

/-- The LookupIndex insertion step as the specification words it
(spec section 4.2): skip the row when its key is already present or its
value is null, otherwise append the pair at the end. -/
def specIndexStep (idx : List (String × Value)) (kv : String × Value) : List (String × Value) :=
  if ((idx.find? (fun p => p.1 == kv.1)).isSome) then idx
  else if kv.2.isNA then idx
  else idx ++ [kv]

/-- The LookupIndex build as the specification words it: scan the
(normalized key, source value) rows in original order, inserting with
`specIndexStep`. -/
def specIndex (rows : List (String × Value)) : List (String × Value) :=
  rows.foldl specIndexStep []

/-- Lookup in the specification side index: the value of the first entry
with the requested key. -/
def specLookup (idx : List (String × Value)) (k : String) : Option Value :=
  (idx.find? (fun p => p.1 == k)).map Prod.snd

/-- Spec section 8 scenario, source side: keys ["Alice", " bob ", "CARL"],
values [10, 20, 30]. -/
def srcEx : Table := Table.mk
  [("k", [Value.str "Alice", Value.str " bob ", Value.str "CARL"]),
   ("v", [Value.num 10, Value.num 20, Value.num 30])]

def dstEx : Table := Table.mk
  [("kb", [Value.str "alice", Value.str "Bob", Value.str "dave"]),
   ("t", [Value.blank, Value.num 5, Value.blank])]

def argsEx (b : Bool) : MergeArgs := MergeArgs.mk "k" "v" "kb" "t" b

/-- A destination table without the target column, to exhibit the schema
side effect of lines 76-77. -/
def dstNoTarget : Table := Table.mk [("kb", [Value.str "x"])]

/-- Source table whose key column holds a blank cell (for the blank vs
literal "nan" collision). -/
def srcBlankKey : Table := Table.mk
  [("k", [Value.blank]), ("v", [Value.num 7])]

/-- Idempotence counterexample input: the target column IS the key
column of the destination. -/
def cArgsKeyTarget : MergeArgs := MergeArgs.mk "k" "v" "kb" "kb" false

/-- Idempotence counterexample, source side. -/
def cSrcKT : Table := Table.mk [("k", [Value.str "a"]), ("v", [Value.str "b"])]

/-- Idempotence counterexample, destination side. -/
def cDstKT : Table := Table.mk [("kb", [Value.str "a"])]

/-- Result of the first Overwrite merge of `cSrcKT` into `cDstKT`: the
key column itself has been rewritten to the looked-up value. -/
def cOutKT : Table := Table.mk [("kb", [Value.str "b"])]

/-- Result of merging `cSrcKT` into `cOutKT` again: the rewritten key no
longer matches, so the cell is blanked. -/
def cOutKT2 : Table := Table.mk [("kb", [Value.blank])]

/-- Null-skipping scenario of spec section 8: source rows
[(key "X", null), (key "X", 7)]. -/
def srcNull : Table := Table.mk
  [("k", [Value.str "X", Value.str "X"]), ("v", [Value.blank, Value.num 7])]

/-- Result of the FillEmptyOnly merge of `srcEx` into `dstEx`
(spec section 8 scenario: [10, 5, blank]). -/
def outFillEx : Table := Table.mk
  [("kb", [Value.str "alice", Value.str "Bob", Value.str "dave"]),
   ("t", [Value.num 10, Value.num 5, Value.blank])]

/-- Result of the Overwrite merge of `srcEx` into `dstEx`: the non-blank
cell 5 is overwritten with the matched 20. -/
def outOverEx : Table := Table.mk
  [("kb", [Value.str "alice", Value.str "Bob", Value.str "dave"]),
   ("t", [Value.num 10, Value.num 20, Value.blank])]

/-- One-row source table used to exhibit the line 66 mutation. -/
def srcTiny : Table := Table.mk [("k", [Value.str "A"])]

/-! ## Lemmas about the table operations -/

theorem any_false_find?_none {α : Type} (p : α → Bool) (l : List α)
    (h : l.any p = false) : l.find? p = none := by
  rw [List.find?_eq_none]
  intro x hx
  rw [List.any_eq_false] at h
  simp [h x hx]

theorem hasCol_false_find? (t : Table) (c : String) (h : t.hasCol c = false) :
    t.cols.find? (fun p => p.1 == c) = none :=
  any_false_find?_none _ _ h

theorem setCol_map_fun (c : String) (xs : List Value) (p : String × List Value) :
    ((if p.1 == c then (c, xs) else p).1 == c) = (p.1 == c) := by
  by_cases hp : p.1 = c <;> simp [hp]

theorem getCol_setCol_self (t : Table) (c : String) (xs : List Value) :
    (t.setCol c xs).getCol c = xs := by
  cases hc : t.hasCol c with
  | true =>
    simp only [Table.setCol, hc, if_true, Table.getCol, List.find?_map]
    have hfun : ((fun p : String × List Value => p.1 == c)
        ∘ (fun p => if p.1 == c then (c, xs) else p))
        = fun p : String × List Value => p.1 == c := by
      funext p
      exact setCol_map_fun c xs p
    rw [hfun]
    unfold Table.hasCol at hc
    rw [List.any_eq_true] at hc
    obtain ⟨q, hq, hqc⟩ := hc
    cases hf : t.cols.find? (fun p => p.1 == c) with
    | none =>
      rw [List.find?_eq_none] at hf
      exact absurd hqc (hf q hq)
    | some r =>
      have hr := List.find?_some hf
      simp only [beq_iff_eq] at hr
      simp [hr]
  | false =>
    simp only [Table.setCol, hc, Bool.false_eq_true, if_false, Table.getCol,
      List.find?_append, hasCol_false_find? t c hc, Option.none_or]
    simp

theorem getCol_setCol_other (t : Table) (c c2 : String) (xs : List Value)
    (h : c2 ≠ c) : (t.setCol c xs).getCol c2 = t.getCol c2 := by
  cases hc : t.hasCol c with
  | true =>
    simp only [Table.setCol, hc, if_true, Table.getCol, List.find?_map]
    have hfun : ((fun p : String × List Value => p.1 == c2)
        ∘ (fun p => if p.1 == c then (c, xs) else p))
        = fun p : String × List Value => p.1 == c2 := by
      funext p
      by_cases hp : p.1 = c
      · simp [hp, fun hh : c = c2 => h hh.symm]
      · simp [hp]
    rw [hfun]
    cases hf : t.cols.find? (fun p => p.1 == c2) with
    | none => rfl
    | some r =>
      have hr := List.find?_some hf
      simp only [beq_iff_eq] at hr
      have hrc : ¬(r.1 = c) := by rw [hr]; exact h
      simp [hrc]
  | false =>
    simp only [Table.setCol, hc, Bool.false_eq_true, if_false, Table.getCol,
      List.find?_append]
    have hcc : ¬(c = c2) := fun hh => h hh.symm
    have hone : List.find? (fun p => p.1 == c2) [(c, xs)] = none := by
      simp only [List.find?]
      have : (c == c2) = false := by simp [hcc]
      simp [this]
    rw [hone, Option.or_none]

theorem columns_setCol (t : Table) (c : String) (xs : List Value) :
    (t.setCol c xs).columns
      = if t.hasCol c then t.columns else t.columns ++ [c] := by
  cases hc : t.hasCol c with
  | true =>
    simp only [Table.setCol, hc, if_true, Table.columns, List.map_map]
    apply List.map_congr_left
    intro p _
    by_cases hp : p.1 = c
    · simp [hp]
    · simp [hp]
  | false =>
    simp [Table.setCol, hc, Table.columns]

theorem hasCol_setCol_self (t : Table) (c : String) (xs : List Value) :
    (t.setCol c xs).hasCol c = true := by
  cases hc : t.hasCol c with
  | true =>
    simp only [Table.setCol, hc, if_true]
    simp only [Table.hasCol, List.any_map]
    have hfun : ((fun p : String × List Value => p.1 == c)
        ∘ (fun p => if p.1 == c then (c, xs) else p))
        = fun p : String × List Value => p.1 == c := by
      funext p
      exact setCol_map_fun c xs p
    rw [hfun]
    unfold Table.hasCol at hc
    exact hc
  | false =>
    simp only [Table.setCol, hc, Bool.false_eq_true, if_false]
    simp [Table.hasCol]

theorem hasCol_setCol_other (t : Table) (c c2 : String) (xs : List Value)
    (h : c2 ≠ c) : (t.setCol c xs).hasCol c2 = t.hasCol c2 := by
  cases hc : t.hasCol c with
  | true =>
    simp only [Table.setCol, hc, if_true]
    simp only [Table.hasCol, List.any_map]
    congr 1
    funext p
    by_cases hp : p.1 = c
    · simp [Function.comp, hp, fun hh : c = c2 => h hh.symm]
    · simp [Function.comp, hp]
  | false =>
    simp only [Table.setCol, hc, Bool.false_eq_true, if_false]
    simp only [Table.hasCol, List.any_append]
    have hcc : (c == c2) = false := beq_false_of_ne (fun hh => h hh.symm)
    simp [hcc]

theorem hasCol_false_not_mem (t : Table) (c : String)
    (h : t.hasCol c = false) : c ∉ t.columns := by
  intro hmem
  unfold Table.columns at hmem
  obtain ⟨p, hp, hpc⟩ := List.mem_map.mp hmem
  unfold Table.hasCol at h
  rw [List.any_eq_false] at h
  exact h p hp (by simp [hpc])

theorem getCol_length_of_rows (t : Table) (c : String)
    (hrows : ∀ p ∈ t.cols, p.2.length = t.nrows) (h : t.hasCol c = true) :
    (t.getCol c).length = t.nrows := by
  unfold Table.getCol
  cases hf : t.cols.find? (fun p => p.1 == c) with
  | none =>
    exfalso
    rw [List.find?_eq_none] at hf
    unfold Table.hasCol at h
    rw [List.any_eq_true] at h
    obtain ⟨p, hp, hpc⟩ := h
    exact hf p hp hpc
  | some p => exact hrows p (List.mem_of_find?_eq_some hf)

theorem nrows_setCol (t : Table) (c : String) (xs : List Value)
    (hrows : ∀ p ∈ t.cols, p.2.length = t.nrows)
    (hlen : xs.length = t.nrows) : (t.setCol c xs).nrows = t.nrows := by
  cases hc : t.hasCol c with
  | true =>
    simp only [Table.setCol, hc, if_true]
    obtain ⟨cols⟩ := t
    cases cols with
    | nil => rfl
    | cons p rest =>
      simp only [List.map_cons, Table.nrows]
      by_cases hp : p.1 = c
      · rw [if_pos (by simp [hp])]
        exact hlen
      · rw [if_neg (by simp [hp])]
  | false =>
    simp only [Table.setCol, hc, Bool.false_eq_true, if_false]
    obtain ⟨cols⟩ := t
    cases cols with
    | nil => exact hlen
    | cons p rest => rfl

theorem rows_setCol (t : Table) (c : String) (xs : List Value)
    (hrows : ∀ p ∈ t.cols, p.2.length = t.nrows)
    (hlen : xs.length = t.nrows) :
    ∀ p ∈ (t.setCol c xs).cols, p.2.length = (t.setCol c xs).nrows := by
  intro p hp
  rw [nrows_setCol t c xs hrows hlen]
  revert hp
  cases hc : t.hasCol c with
  | true =>
    simp only [Table.setCol, hc, if_true]
    intro hp
    rw [List.mem_map] at hp
    obtain ⟨q, hq, hqe⟩ := hp
    by_cases hq1 : q.1 = c
    · rw [if_pos (by simp [hq1])] at hqe
      rw [← hqe]
      exact hlen
    · rw [if_neg (by simp [hq1])] at hqe
      rw [← hqe]
      exact hrows q hq
  | false =>
    simp only [Table.setCol, hc, Bool.false_eq_true, if_false]
    intro hp
    rw [List.mem_append] at hp
    cases hp with
    | inl hmem => exact hrows p hmem
    | inr hmem =>
      simp only [List.mem_singleton] at hmem
      rw [hmem]
      exact hlen

theorem hasCol_ensureTarget_self (t : Table) (c : String) :
    (ensureTarget t c).hasCol c = true := by
  cases hc : t.hasCol c with
  | true => simp [ensureTarget, hc]
  | false => simp [ensureTarget, hc, hasCol_setCol_self]

theorem hasCol_ensureTarget_other (t : Table) (c c2 : String) (h : c2 ≠ c) :
    (ensureTarget t c).hasCol c2 = t.hasCol c2 := by
  cases hc : t.hasCol c with
  | true => simp [ensureTarget, hc]
  | false => simp [ensureTarget, hc, hasCol_setCol_other t c c2 _ h]

theorem getCol_ensureTarget_other (t : Table) (c c2 : String) (h : c2 ≠ c) :
    (ensureTarget t c).getCol c2 = t.getCol c2 := by
  cases hc : t.hasCol c with
  | true => simp [ensureTarget, hc]
  | false => simp [ensureTarget, hc, getCol_setCol_other t c c2 _ h]

theorem getCol_ensureTarget_self (t : Table) (c : String) :
    (ensureTarget t c).getCol c
      = if t.hasCol c then t.getCol c else List.replicate t.nrows Value.blank := by
  cases hc : t.hasCol c with
  | true => simp [ensureTarget, hc]
  | false => simp [ensureTarget, hc, getCol_setCol_self]

theorem columns_ensureTarget (t : Table) (c : String) :
    (ensureTarget t c).columns
      = if t.hasCol c then t.columns else t.columns ++ [c] := by
  cases hc : t.hasCol c with
  | true => simp [ensureTarget, hc]
  | false => simp [ensureTarget, hc, columns_setCol]

theorem nrows_ensureTarget (t : Table) (c : String)
    (hrows : ∀ p ∈ t.cols, p.2.length = t.nrows) :
    (ensureTarget t c).nrows = t.nrows := by
  cases hc : t.hasCol c with
  | true => simp [ensureTarget, hc]
  | false =>
    simp only [ensureTarget, hc, Bool.false_eq_true, if_false]
    exact nrows_setCol t c _ hrows (by simp)

theorem rows_ensureTarget (t : Table) (c : String)
    (hrows : ∀ p ∈ t.cols, p.2.length = t.nrows) :
    ∀ p ∈ (ensureTarget t c).cols, p.2.length = (ensureTarget t c).nrows := by
  cases hc : t.hasCol c with
  | true => simpa [ensureTarget, hc] using hrows
  | false =>
    simp only [ensureTarget, hc, Bool.false_eq_true, if_false]
    exact rows_setCol t c _ hrows (by simp)

theorem nodup_columns_ensureTarget (t : Table) (c : String)
    (hnd : t.columns.Nodup) : (ensureTarget t c).columns.Nodup := by
  cases hc : t.hasCol c with
  | true => simpa [ensureTarget, hc] using hnd
  | false =>
    simp only [ensureTarget, hc, Bool.false_eq_true, if_false, columns_setCol]
    have hnm := hasCol_false_not_mem t c hc
    refine List.Nodup.append hnd (List.nodup_singleton c) ?_
    intro x hx hxc
    rw [List.mem_singleton] at hxc
    rw [hxc] at hx
    exact hnm hx

theorem map_if_nokey (c : String) (z : String × List Value) :
    ∀ (l : List (String × List Value)), (∀ q ∈ l, ¬(q.1 = c)) →
      l.map (fun q => if q.1 == c then z else q) = l := by
  intro l
  induction l with
  | nil =>
    intro _
    rfl
  | cons q rest ih =>
    intro h
    rw [List.map_cons, if_neg (by simp [h q (List.mem_cons_self q rest)]),
      ih (fun q2 hq2 => h q2 (List.mem_cons_of_mem q hq2))]

theorem mapSet_self (cols : List (String × List Value)) (c : String)
    (hnd : (cols.map Prod.fst).Nodup) :
    cols.map (fun p => if p.1 == c then (c, (Table.mk cols).getCol c) else p) = cols := by
  induction cols with
  | nil => rfl
  | cons p rest ih =>
    simp only [List.map_cons] at hnd
    rw [List.nodup_cons] at hnd
    by_cases hp : p.1 = c
    · have hget : (Table.mk (p :: rest)).getCol c = p.2 := by
        have hf : List.find? (fun q : String × List Value => q.1 == c) (p :: rest)
            = some p := by
          apply List.find?_cons_of_pos
          simp [hp]
        simp [Table.getCol, hf]
      rw [List.map_cons, hget, if_pos (by simp [hp])]
      have hkeys : ∀ q ∈ rest, ¬(q.1 = c) := by
        intro q hq hqc
        apply hnd.1
        rw [hp, ← hqc]
        exact List.mem_map_of_mem Prod.fst hq
      rw [map_if_nokey c (c, p.2) rest hkeys, ← hp]
    · have hget : (Table.mk (p :: rest)).getCol c = (Table.mk rest).getCol c := by
        have hf : List.find? (fun q : String × List Value => q.1 == c) (p :: rest)
            = List.find? (fun q : String × List Value => q.1 == c) rest := by
          apply List.find?_cons_of_neg
          simp [hp]
        simp [Table.getCol, hf]
      rw [List.map_cons, hget, if_neg (by simp [hp]), ih hnd.2]

theorem setCol_getCol_id (t : Table) (c : String)
    (hnd : t.columns.Nodup) (hc : t.hasCol c = true) :
    t.setCol c (t.getCol c) = t := by
  simp only [Table.setCol, hc, if_true]
  obtain ⟨cols⟩ := t
  congr 1
  exact mapSet_self cols c hnd

theorem zipWith_getD {α β γ : Type} (f : α → β → γ) (da : α) (db : β) (dc : γ) :
    ∀ (as : List α) (bs : List β) (i : Nat), i < as.length → i < bs.length →
      (List.zipWith f as bs).getD i dc = f (as.getD i da) (bs.getD i db) := by
  intro as
  induction as with
  | nil =>
    intro bs i h1 h2
    simp at h1
  | cons a as ih =>
    intro bs i h1 h2
    cases bs with
    | nil => simp at h2
    | cons b bs =>
      cases i with
      | zero => simp
      | succ n =>
        simp only [List.zipWith_cons_cons, List.getD_cons_succ]
        exact ih bs n (by simpa using h1) (by simpa using h2)

theorem map_getD {α β : Type} (f : α → β) (d : β) (d0 : α) :
    ∀ (l : List α) (i : Nat), i < l.length →
      (l.map f).getD i d = f (l.getD i d0) := by
  intro l
  induction l with
  | nil =>
    intro i h
    simp at h
  | cons x l ih =>
    intro i h
    cases i with
    | zero => simp
    | succ n =>
      simp only [List.map_cons, List.getD_cons_succ]
      exact ih n (by simpa using h)

theorem length_filter_map_eq {α β : Type} (f : α → β) (p : β → Bool) (l : List α) :
    ((l.map f).filter p).length = (l.filter (fun x => p (f x))).length := by
  rw [List.filter_map, List.length_map]
  rfl

theorem groupFirst_map_eq_find? :
    ∀ (keys vals : List Value) (k : String),
      groupFirst (keys.map normalize_key) vals k
        = ((keys.zip vals).find? (fun p => normalize_key p.1 == k && !p.2.isNA)).map Prod.snd := by
  intro keys
  induction keys with
  | nil =>
    intro vals k
    cases vals <;> rfl
  | cons x keys ih =>
    intro vals k
    cases vals with
    | nil => rfl
    | cons v vals =>
      simp only [List.map_cons, List.zip_cons_cons, groupFirst]
      by_cases hg : (normalize_key x == k && !v.isNA) = true
      · rw [if_pos hg]
        have hf : List.find? (fun p : Value × Value => normalize_key p.1 == k && !p.2.isNA)
            ((x, v) :: keys.zip vals) = some (x, v) := by
          apply List.find?_cons_of_pos
          simpa using hg
        rw [hf]
        rfl
      · rw [if_neg hg]
        have hf : List.find? (fun p : Value × Value => normalize_key p.1 == k && !p.2.isNA)
            ((x, v) :: keys.zip vals)
            = List.find? (fun p : Value × Value => normalize_key p.1 == k && !p.2.isNA)
              (keys.zip vals) := by
          apply List.find?_cons_of_neg
          simpa using hg
        rw [hf]
        exact ih vals k

theorem groupFirst_isNA_false :
    ∀ (ks : List String) (vs : List Value) (k : String) (v : Value),
      groupFirst ks vs k = some v → v.isNA = false := by
  intro ks
  induction ks with
  | nil =>
    intro vs k v h
    cases vs <;> simp [groupFirst] at h
  | cons k0 ks ih =>
    intro vs k v h
    cases vs with
    | nil => simp [groupFirst] at h
    | cons v0 vs =>
      simp only [groupFirst] at h
      by_cases hg : (k0 == k && !v0.isNA) = true
      · rw [if_pos hg] at h
        have hna := (Bool.and_eq_true _ _).mp hg
        cases h
        simpa using hna.2
      · rw [if_neg hg] at h
        exact ih vs k v h

theorem buildMapping_eq_groupFirst (df : Table) (ka sa : String)
    (hsa : sa ≠ "_key_norm_") (k : String) :
    buildMapping df ka sa k
      = groupFirst ((df.getCol ka).map normalize_key) (df.getCol sa) k := by
  unfold buildMapping addKeyNorm
  rw [getCol_setCol_self, getCol_setCol_other _ _ _ _ hsa]
  congr 1
  rw [List.map_map]
  apply List.map_congr_left
  intro v _
  rfl

theorem specLookup_step (idx : List (String × Value)) (r : String × Value) (k : String) :
    specLookup (specIndexStep idx r) k
      = match specLookup idx k with
        | some v => some v
        | none => if r.1 == k && !r.2.isNA then some r.2 else none := by
  unfold specIndexStep
  by_cases h1 : (idx.find? (fun p => p.1 == r.1)).isSome
  · rw [if_pos h1]
    cases hk : specLookup idx k with
    | some v => rfl
    | none =>
      by_cases hrk : r.1 = k
      · exfalso
        unfold specLookup at hk
        rw [hrk] at h1
        cases hf : idx.find? (fun p => p.1 == k) with
        | none =>
          rw [hf] at h1
          simp at h1
        | some q =>
          rw [hf] at hk
          simp at hk
      · have hrkb : (r.1 == k) = false := beq_false_of_ne hrk
        simp [hrkb]
  · rw [if_neg h1]
    by_cases h2 : r.2.isNA = true
    · rw [if_pos h2]
      cases hk : specLookup idx k with
      | some v => rfl
      | none => simp [h2]
    · rw [if_neg h2]
      unfold specLookup
      rw [List.find?_append]
      cases hk : idx.find? (fun p => p.1 == k) with
      | some q => rfl
      | none =>
        simp only [Option.none_or]
        have hna : (!r.2.isNA) = true := by
          rw [Bool.not_eq_true] at h2
          simp [h2]
        by_cases hrk : r.1 = k
        · have hf : List.find? (fun p : String × Value => p.1 == k) [r] = some r := by
            apply List.find?_cons_of_pos
            simp [hrk]
          rw [hf]
          simp [hrk, hna]
        · have hf : List.find? (fun p : String × Value => p.1 == k) [r]
              = List.find? (fun p : String × Value => p.1 == k) [] := by
            apply List.find?_cons_of_neg
            simp [hrk]
          rw [hf]
          simp [beq_false_of_ne hrk]

theorem specLookup_foldl :
    ∀ (rows idx : List (String × Value)) (k : String),
      specLookup (rows.foldl specIndexStep idx) k
        = match specLookup idx k with
          | some v => some v
          | none => (rows.find? (fun p => p.1 == k && !p.2.isNA)).map Prod.snd := by
  intro rows
  induction rows with
  | nil =>
    intro idx k
    cases h : specLookup idx k <;> simp [h]
  | cons r rows ih =>
    intro idx k
    simp only [List.foldl_cons]
    rw [ih (specIndexStep idx r) k, specLookup_step]
    cases hk : specLookup idx k with
    | some v => rfl
    | none =>
      by_cases hg : (r.1 == k && !r.2.isNA) = true
      · rw [if_pos hg]
        have hf : List.find? (fun p : String × Value => p.1 == k && !p.2.isNA) (r :: rows)
            = some r := by
          apply List.find?_cons_of_pos
          simpa using hg
        rw [hf]
        rfl
      · rw [if_neg hg]
        have hf : List.find? (fun p : String × Value => p.1 == k && !p.2.isNA) (r :: rows)
            = List.find? (fun p : String × Value => p.1 == k && !p.2.isNA) rows := by
          apply List.find?_cons_of_neg
          simpa using hg
        rw [hf]

theorem validateColumns_ok (a : MergeArgs) (df_a df_b : Table)
    (h : validateColumns a df_a df_b = Except.ok ()) :
    df_a.hasCol a.key_a = true ∧ df_a.hasCol a.source_a = true
      ∧ df_b.hasCol a.key_b = true := by
  unfold validateColumns at h
  by_cases h1 : df_a.hasCol a.key_a
  · by_cases h2 : df_a.hasCol a.source_a
    · by_cases h3 : df_b.hasCol a.key_b
      · exact ⟨h1, h2, h3⟩
      · simp [h1, h2, h3] at h
    · simp [h1, h2] at h
  · simp [h1] at h

theorem mainMerge_ok_parts (a : MergeArgs) (df_a df_b out : Table) (st : MatchStats)
    (h : mainMerge a df_a df_b = Except.ok (out, st)) :
    validateColumns a df_a df_b = Except.ok () ∧
    out = (ensureTarget df_b a.target_b).setCol a.target_b
        (applyFill a.only_fill_empty ((ensureTarget df_b a.target_b).getCol a.target_b)
          (matchedValues df_a df_b a)) ∧
    st = MatchStats.mk ((matchedValues df_a df_b a).filter (fun v => !v.isNA)).length
        df_b.nrows := by
  unfold mainMerge at h
  cases hv : validateColumns a df_a df_b with
  | error e =>
    rw [hv] at h
    simp at h
  | ok u =>
    cases u
    rw [hv] at h
    simp only [Except.ok.injEq, Prod.mk.injEq] at h
    exact ⟨rfl, h.1.symm, h.2.symm⟩

theorem groupFirst_eq_find? :
    ∀ (ks : List String) (vs : List Value) (k : String),
      groupFirst ks vs k
        = ((ks.zip vs).find? (fun p => p.1 == k && !p.2.isNA)).map Prod.snd := by
  intro ks
  induction ks with
  | nil =>
    intro vs k
    cases vs <;> rfl
  | cons k0 ks ih =>
    intro vs k
    cases vs with
    | nil => rfl
    | cons v vs =>
      simp only [List.zip_cons_cons, groupFirst]
      by_cases hg : (k0 == k && !v.isNA) = true
      · rw [if_pos hg]
        have hf : List.find? (fun p : String × Value => p.1 == k && !p.2.isNA)
            ((k0, v) :: ks.zip vs) = some (k0, v) := by
          apply List.find?_cons_of_pos
          simpa using hg
        rw [hf]
        rfl
      · rw [if_neg hg]
        have hf : List.find? (fun p : String × Value => p.1 == k && !p.2.isNA)
            ((k0, v) :: ks.zip vs)
            = List.find? (fun p : String × Value => p.1 == k && !p.2.isNA) (ks.zip vs) := by
          apply List.find?_cons_of_neg
          simpa using hg
        rw [hf]
        exact ih vs k

theorem buildMapping_getD_isNA (df_a : Table) (ka sa k : String) :
    (!((buildMapping df_a ka sa k).getD Value.blank).isNA)
      = (buildMapping df_a ka sa k).isSome := by
  cases hb : buildMapping df_a ka sa k with
  | none => rfl
  | some v =>
    have hna : v.isNA = false := by
      unfold buildMapping at hb
      exact groupFirst_isNA_false _ _ _ _ hb
    simp [hna]

theorem length_matchedValues (df_a df_b : Table) (a : MergeArgs) :
    (matchedValues df_a df_b a).length = (df_b.getCol a.key_b).length := by
  unfold matchedValues
  rw [List.length_map, List.length_map]

theorem length_ensureTarget_col (t : Table) (c : String)
    (hrows : ∀ p ∈ t.cols, p.2.length = t.nrows) :
    ((ensureTarget t c).getCol c).length = t.nrows := by
  rw [getCol_ensureTarget_self]
  cases hc : t.hasCol c with
  | true =>
    simp only [hc, if_true]
    exact getCol_length_of_rows t c hrows hc
  | false =>
    simp only [hc, Bool.false_eq_true, if_false]
    exact List.length_replicate _ _

/-! ## Claim theorems -/

/-- C1: for every source table and normalized key k, the lookup index
built at lines 66-68 maps k to the source-value cell of the first row (in
original source row order) whose key normalizes to k and whose source
value is non-null — equivalently, it agrees with the insertion-based
index the specification describes, where null values never displace a
chosen value and later rows never overwrite an existing entry. -/
theorem C1_lookup_index_first_non_null (df_a : Table) (ka sa k : String)
    (hsa : sa ≠ "_key_norm_") :
    buildMapping df_a ka sa k
      = (((df_a.getCol ka).zip (df_a.getCol sa)).find?
          (fun p => normalize_key p.1 == k && !p.2.isNA)).map Prod.snd
  ∧ buildMapping df_a ka sa k
      = specLookup (specIndex (((df_a.getCol ka).map normalize_key).zip (df_a.getCol sa))) k := by
  constructor
  · rw [buildMapping_eq_groupFirst df_a ka sa hsa k]
    exact groupFirst_map_eq_find? (df_a.getCol ka) (df_a.getCol sa) k
  · rw [buildMapping_eq_groupFirst df_a ka sa hsa k]
    unfold specIndex
    rw [specLookup_foldl]
    exact groupFirst_eq_find? ((df_a.getCol ka).map normalize_key) (df_a.getCol sa) k

/-- Witness for C1 on the null-skipping scenario of spec section 8:
the key "x" resolves to 7, skipping the earlier null row. -/
theorem C1_lookup_index_first_non_null_witness :
    ("v" : String) ≠ "_key_norm_"
  ∧ (buildMapping srcNull "k" "v" "x"
      = (((srcNull.getCol "k").zip (srcNull.getCol "v")).find?
          (fun p => normalize_key p.1 == "x" && !p.2.isNA)).map Prod.snd
    ∧ buildMapping srcNull "k" "v" "x"
      = specLookup (specIndex (((srcNull.getCol "k").map normalize_key).zip (srcNull.getCol "v"))) "x")
  ∧ buildMapping srcNull "k" "v" "x" = some (Value.num 7) :=
  ⟨by decide, C1_lookup_index_first_non_null srcNull "k" "v" "x" (by decide), by decide⟩

/-- C7 counterexample: a blank cell does NOT normalize to the empty
string (it normalizes to "nan", since astype(str) renders NaN as "nan"),
and it does not collide with a key that trims to the empty string. -/
theorem C7_blank_not_empty_key :
    normalize_key Value.blank ≠ ""
  ∧ normalize_key Value.blank ≠ normalize_key (Value.str " ") := by
  constructor <;> decide

/-- C7 amended: normalizing a blank/null cell yields the string "nan",
so all blank key cells compare equal to each other (and to any key whose
trimmed case-folded text is "nan"), but not to keys that trim to the
empty string. -/
theorem C7_blank_normalizes_to_nan (v w : Value)
    (hv : v.isNA = true) (hw : w.isNA = true) :
    normalize_key v = normalize_key w ∧ normalize_key v = "nan" := by
  cases v with
  | str s => simp [Value.isNA] at hv
  | num n => simp [Value.isNA] at hv
  | blank =>
    cases w with
    | str s => simp [Value.isNA] at hw
    | num n => simp [Value.isNA] at hw
    | blank => exact ⟨rfl, by decide⟩

/-- Witness for C7 amended, at the blank marker itself. -/
theorem C7_blank_normalizes_to_nan_witness :
    Value.blank.isNA = true
  ∧ (normalize_key Value.blank = normalize_key Value.blank
    ∧ normalize_key Value.blank = "nan") :=
  ⟨rfl, C7_blank_normalizes_to_nan Value.blank Value.blank rfl rfl⟩

/-- C9 counterexample: line 66 adds the helper column to the in-memory
source frame, so the source table is not left completely unchanged. -/
theorem C9_source_frame_mutated : addKeyNorm srcTiny "k" ≠ srcTiny := by
  decide

/-- C9 amended: the merge adds (or overwrites) exactly one helper column
named "_key_norm_" on the in-memory source table; every other source
column is preserved verbatim (cells and order), and the column list is
preserved up to appending the helper name when absent. -/
theorem C9_source_mutation_limited (df : Table) (ka c : String)
    (hc : c ≠ "_key_norm_") :
    (addKeyNorm df ka).getCol c = df.getCol c
  ∧ (addKeyNorm df ka).columns
      = (if df.hasCol "_key_norm_" then df.columns else df.columns ++ ["_key_norm_"]) := by
  unfold addKeyNorm
  exact ⟨getCol_setCol_other _ _ _ _ hc, columns_setCol _ _ _⟩

/-- Witness for C9 amended, on the spec section 8 source table. -/
theorem C9_source_mutation_limited_witness :
    ("v" : String) ≠ "_key_norm_"
  ∧ ((addKeyNorm srcEx "k").getCol "v" = srcEx.getCol "v"
    ∧ (addKeyNorm srcEx "k").columns
      = (if srcEx.hasCol "_key_norm_" then srcEx.columns else srcEx.columns ++ ["_key_norm_"])) :=
  ⟨by decide, C9_source_mutation_limited srcEx "k" "v" (by decide)⟩

/-- C10: any key cell whose trimmed, case-folded text is "nan" normalizes
to the same key as a blank cell, so such a destination row and a
blank-keyed source row (and vice versa) match each other in the lookup. -/
theorem C10_nan_text_collides_with_blank (s : String) (df : Table) (ka sa : String)
    (h : strLower (strTrim s) = "nan") :
    normalize_key (Value.str s) = normalize_key Value.blank
  ∧ buildMapping df ka sa (normalize_key (Value.str s))
      = buildMapping df ka sa (normalize_key Value.blank) := by
  have h1 : normalize_key (Value.str s) = "nan" := h
  have h2 : normalize_key Value.blank = "nan" := by decide
  refine ⟨h1.trans h2.symm, ?_⟩
  rw [h1.trans h2.symm]

/-- Witness for C10: the literal text " NaN " matches the blank-keyed
source row of `srcBlankKey` and retrieves its value 7. -/
theorem C10_nan_text_collides_with_blank_witness :
    strLower (strTrim " NaN ") = "nan"
  ∧ (normalize_key (Value.str " NaN ") = normalize_key Value.blank
    ∧ buildMapping srcBlankKey "k" "v" (normalize_key (Value.str " NaN "))
      = buildMapping srcBlankKey "k" "v" (normalize_key Value.blank))
  ∧ buildMapping srcBlankKey "k" "v" (normalize_key (Value.str " NaN "))
      = some (Value.num 7) :=
  ⟨by decide, C10_nan_text_collides_with_blank " NaN " srcBlankKey "k" "v" (by decide), by decide⟩

/-- C2: contrary to the claim, a run that passes all precondition checks
does not apply the merge; it raises AttributeError at line 79
(`args.only-fill-empty` parses as `args.only - fill - empty`), i.e. it
fails AFTER the precondition-check stage — and by then the destination
frame may already have been modified (lines 76-77 create the target
column), as the second conjunct exhibits on a concrete table. -/
theorem C2_run_fails_after_precondition_stage (a : MergeArgs) (df_a df_b : Table)
    (h : validateColumns a df_a df_b = Except.ok ()) :
    mainMergeActual a df_a df_b
      = Except.error "AttributeError: Namespace object has no attribute only"
  ∧ ensureTarget dstNoTarget "t2" ≠ dstNoTarget := by
  constructor
  · unfold mainMergeActual
    rw [h]
  · decide

/-- Witness for C2 at the spec section 8 tables, which pass all
precondition checks. -/
theorem C2_run_fails_after_precondition_stage_witness :
    validateColumns (argsEx false) srcEx dstEx = Except.ok ()
  ∧ (mainMergeActual (argsEx false) srcEx dstEx
      = Except.error "AttributeError: Namespace object has no attribute only"
    ∧ ensureTarget dstNoTarget "t2" ≠ dstNoTarget) :=
  ⟨rfl, C2_run_fails_after_precondition_stage (argsEx false) srcEx dstEx rfl⟩

/-- C3: under the FillEmptyOnly policy (line 79 read as the flag the
parser declares — the code as written raises AttributeError there), every
destination row whose target cell is non-blank keeps its value even when
a differing match exists, and blank or whitespace-only cells receive the
looked-up value. -/
theorem C3_fill_empty_preserves_nonblank (a : MergeArgs) (df_a df_b out : Table)
    (st : MatchStats) (i : Nat)
    (hpol : a.only_fill_empty = true)
    (hwf : df_b.WF)
    (hrun : mainMerge a df_a df_b = Except.ok (out, st))
    (hi : i < df_b.nrows) :
    (out.getCol a.target_b).getD i Value.blank
      = (if isBlankCell (((ensureTarget df_b a.target_b).getCol a.target_b).getD i Value.blank)
         then (matchedValues df_a df_b a).getD i Value.blank
         else ((ensureTarget df_b a.target_b).getCol a.target_b).getD i Value.blank) := by
  obtain ⟨hv, hout, hst⟩ := mainMerge_ok_parts a df_a df_b out st hrun
  obtain ⟨hka, hsa2, hkb⟩ := validateColumns_ok a df_a df_b hv
  have hlenT : ((ensureTarget df_b a.target_b).getCol a.target_b).length = df_b.nrows :=
    length_ensureTarget_col df_b a.target_b hwf.2
  have hlenM : (matchedValues df_a df_b a).length = df_b.nrows := by
    rw [length_matchedValues]
    exact getCol_length_of_rows df_b a.key_b hwf.2 hkb
  rw [hout, getCol_setCol_self, hpol]
  show (List.zipWith (fun t m => if isBlankCell t then m else t)
      ((ensureTarget df_b a.target_b).getCol a.target_b)
      (matchedValues df_a df_b a)).getD i Value.blank = _
  rw [zipWith_getD (fun t m => if isBlankCell t then m else t) Value.blank Value.blank
    Value.blank ((ensureTarget df_b a.target_b).getCol a.target_b)
    (matchedValues df_a df_b a) i (by rw [hlenT]; exact hi) (by rw [hlenM]; exact hi)]

/-- Witness for C3 on the spec section 8 scenario: row 1 ("Bob", target
cell 5, matching source value 20) keeps its 5. -/
theorem C3_fill_empty_preserves_nonblank_witness :
    (argsEx true).only_fill_empty = true
  ∧ dstEx.WF
  ∧ mainMerge (argsEx true) srcEx dstEx = Except.ok (outFillEx, MatchStats.mk 2 3)
  ∧ 1 < dstEx.nrows
  ∧ (outFillEx.getCol "t").getD 1 Value.blank
      = (if isBlankCell (((ensureTarget dstEx "t").getCol "t").getD 1 Value.blank)
         then (matchedValues srcEx dstEx (argsEx true)).getD 1 Value.blank
         else ((ensureTarget dstEx "t").getCol "t").getD 1 Value.blank) :=
  ⟨rfl, by decide, by rfl, by decide,
    C3_fill_empty_preserves_nonblank (argsEx true) srcEx dstEx outFillEx
      (MatchStats.mk 2 3) 1 rfl (by decide) (by rfl) (by decide)⟩

/-- C4: under the Overwrite policy (line 79 read as the flag the parser
declares — the code as written raises AttributeError there), the whole
target column is set to the looked-up values; in particular a row whose
normalized key has no non-null source value gets the blank marker even if
the cell previously held a value. -/
theorem C4_overwrite_sets_lookup (a : MergeArgs) (df_a df_b out : Table)
    (st : MatchStats) (i : Nat)
    (hpol : a.only_fill_empty = false)
    (hrun : mainMerge a df_a df_b = Except.ok (out, st))
    (hi : i < (df_b.getCol a.key_b).length)
    (hnone : buildMapping df_a a.key_a a.source_a
        (normalize_key ((df_b.getCol a.key_b).getD i Value.blank)) = none) :
    out.getCol a.target_b = matchedValues df_a df_b a
  ∧ (out.getCol a.target_b).getD i Value.blank = Value.blank := by
  obtain ⟨hv, hout, hst⟩ := mainMerge_ok_parts a df_a df_b out st hrun
  have hcol : out.getCol a.target_b = matchedValues df_a df_b a := by
    rw [hout, getCol_setCol_self, hpol]
    rfl
  refine ⟨hcol, ?_⟩
  rw [hcol]
  unfold matchedValues
  rw [map_getD (fun k => (buildMapping df_a a.key_a a.source_a k).getD Value.blank)
    Value.blank "" ((df_b.getCol a.key_b).map normalize_key) i
    (by rw [List.length_map]; exact hi)]
  rw [map_getD normalize_key "" Value.blank (df_b.getCol a.key_b) i hi]
  rw [hnone]
  rfl

/-- Witness for C4: row 2 of the spec section 8 scenario ("dave",
unmatched) is blanked; with a non-blank prior value the same would
happen, as the Overwrite merge result `outOverEx` shows for the whole
column. -/
theorem C4_overwrite_sets_lookup_witness :
    (argsEx false).only_fill_empty = false
  ∧ mainMerge (argsEx false) srcEx dstEx = Except.ok (outOverEx, MatchStats.mk 2 3)
  ∧ 2 < (dstEx.getCol "kb").length
  ∧ buildMapping srcEx "k" "v" (normalize_key ((dstEx.getCol "kb").getD 2 Value.blank)) = none
  ∧ (outOverEx.getCol "t" = matchedValues srcEx dstEx (argsEx false)
    ∧ (outOverEx.getCol "t").getD 2 Value.blank = Value.blank) :=
  ⟨rfl, by rfl, by decide, by decide,
    C4_overwrite_sets_lookup (argsEx false) srcEx dstEx outOverEx (MatchStats.mk 2 3) 2
      rfl (by rfl) (by decide) (by decide)⟩

/-- C5: the match statistics of a completed merge (line 79 read as the
flag the parser declares — the code as written raises AttributeError
before computing them): matched counts the destination rows whose
normalized key resolves to a non-null source value, total is the
destination row count, and both are identical under either fill policy. -/
theorem C5_match_stats (a : MergeArgs) (b : Bool) (df_a df_b out out2 : Table)
    (st st2 : MatchStats)
    (hrun : mainMerge a df_a df_b = Except.ok (out, st))
    (hrun2 : mainMerge (MergeArgs.mk a.key_a a.source_a a.key_b a.target_b b) df_a df_b
        = Except.ok (out2, st2)) :
    st.total = df_b.nrows
  ∧ st.matched = ((df_b.getCol a.key_b).filter
      (fun v => (buildMapping df_a a.key_a a.source_a (normalize_key v)).isSome)).length
  ∧ st2 = st := by
  obtain ⟨hv, hout, hst⟩ := mainMerge_ok_parts a df_a df_b out st hrun
  obtain ⟨hv2, hout2, hst2⟩ := mainMerge_ok_parts _ df_a df_b out2 st2 hrun2
  refine ⟨by rw [hst], ?_, ?_⟩
  · rw [hst]
    show ((matchedValues df_a df_b a).filter (fun v => !v.isNA)).length = _
    unfold matchedValues
    rw [length_filter_map_eq, length_filter_map_eq]
    congr 1
    apply List.filter_congr
    intro v _
    exact buildMapping_getD_isNA df_a a.key_a a.source_a (normalize_key v)
  · rw [hst2, hst]
    rfl

/-- Witness for C5 on the spec section 8 scenario: 2 of 3 rows match,
with identical statistics under both policies. -/
theorem C5_match_stats_witness :
    mainMerge (argsEx false) srcEx dstEx = Except.ok (outOverEx, MatchStats.mk 2 3)
  ∧ mainMerge (MergeArgs.mk "k" "v" "kb" "t" true) srcEx dstEx
      = Except.ok (outFillEx, MatchStats.mk 2 3)
  ∧ ((MatchStats.mk 2 3).total = dstEx.nrows
    ∧ (MatchStats.mk 2 3).matched = ((dstEx.getCol "kb").filter
        (fun v => (buildMapping srcEx "k" "v" (normalize_key v)).isSome)).length
    ∧ (MatchStats.mk 2 3) = (MatchStats.mk 2 3)) :=
  ⟨by rfl, by rfl,
    C5_match_stats (argsEx false) true srcEx dstEx outOverEx outFillEx
      (MatchStats.mk 2 3) (MatchStats.mk 2 3) (by rfl) (by rfl)⟩

/-- C6: a completed merge (line 79 read as the flag the parser declares —
the code as written raises AttributeError before this point) preserves
every destination column other than the target verbatim, hence also row
count and row order; the column list is preserved up to appending the
target name when it was absent, and the target column has one value per
destination row. -/
theorem C6_frame (a : MergeArgs) (df_a df_b out : Table) (st : MatchStats) (c : String)
    (hwf : df_b.WF)
    (hrun : mainMerge a df_a df_b = Except.ok (out, st))
    (hc : c ≠ a.target_b) :
    out.getCol c = df_b.getCol c
  ∧ out.columns
      = (if df_b.hasCol a.target_b then df_b.columns else df_b.columns ++ [a.target_b])
  ∧ (out.getCol a.target_b).length = df_b.nrows := by
  obtain ⟨hv, hout, hst⟩ := mainMerge_ok_parts a df_a df_b out st hrun
  obtain ⟨hka, hsa2, hkb⟩ := validateColumns_ok a df_a df_b hv
  have hlenT : ((ensureTarget df_b a.target_b).getCol a.target_b).length = df_b.nrows :=
    length_ensureTarget_col df_b a.target_b hwf.2
  have hlenM : (matchedValues df_a df_b a).length = df_b.nrows := by
    rw [length_matchedValues]
    exact getCol_length_of_rows df_b a.key_b hwf.2 hkb
  refine ⟨?_, ?_, ?_⟩
  · rw [hout, getCol_setCol_other _ _ _ _ hc, getCol_ensureTarget_other _ _ _ hc]
  · rw [hout, columns_setCol]
    simp only [hasCol_ensureTarget_self, if_true]
    exact columns_ensureTarget df_b a.target_b
  · rw [hout, getCol_setCol_self]
    cases hpol : a.only_fill_empty with
    | false => exact hlenM
    | true =>
      show (List.zipWith (fun t m => if isBlankCell t then m else t)
          ((ensureTarget df_b a.target_b).getCol a.target_b)
          (matchedValues df_a df_b a)).length = df_b.nrows
      rw [List.length_zipWith, hlenT, hlenM, Nat.min_self]

/-- Witness for C6 on the spec section 8 Overwrite run: the key column
"kb" is untouched, the column list is unchanged, and the target column
has 3 cells. -/
theorem C6_frame_witness :
    dstEx.WF
  ∧ mainMerge (argsEx false) srcEx dstEx = Except.ok (outOverEx, MatchStats.mk 2 3)
  ∧ ("kb" : String) ≠ "t"
  ∧ (outOverEx.getCol "kb" = dstEx.getCol "kb"
    ∧ outOverEx.columns
        = (if dstEx.hasCol "t" then dstEx.columns else dstEx.columns ++ ["t"])
    ∧ (outOverEx.getCol "t").length = dstEx.nrows) :=
  ⟨by decide, by rfl, by decide,
    C6_frame (argsEx false) srcEx dstEx outOverEx (MatchStats.mk 2 3) "kb"
      (by decide) (by rfl) (by decide)⟩

/-- C8 counterexample: the code as written never completes a merge
(AttributeError at line 79), and even with line 79 read as the declared
flag, the Overwrite merge is NOT idempotent when the target column is the
destination key column: the first merge rewrites the keys, so the second
merge resolves differently. -/
theorem C8_not_idempotent_counterexample :
    mainMergeActual cArgsKeyTarget cSrcKT cDstKT
      = Except.error "AttributeError: Namespace object has no attribute only"
  ∧ mainMerge cArgsKeyTarget cSrcKT cDstKT = Except.ok (cOutKT, MatchStats.mk 1 1)
  ∧ mainMerge cArgsKeyTarget cSrcKT cOutKT = Except.ok (cOutKT2, MatchStats.mk 0 1)
  ∧ cOutKT2 ≠ cOutKT :=
  ⟨by rfl, by rfl, by rfl, by decide⟩

/-- C8 amended: with line 79 read as the declared flag and the target
column distinct from the destination key column, the Overwrite merge is
idempotent: merging the same source into the first result yields the very
same table and statistics. -/
theorem C8_idempotent_overwrite (a : MergeArgs) (df_a df_b out : Table) (st : MatchStats)
    (hpol : a.only_fill_empty = false)
    (hne : a.key_b ≠ a.target_b)
    (hwf : df_b.WF)
    (hrun : mainMerge a df_a df_b = Except.ok (out, st)) :
    mainMerge a df_a out = Except.ok (out, st) := by
  obtain ⟨hv, hout, hst⟩ := mainMerge_ok_parts a df_a df_b out st hrun
  obtain ⟨hka, hsa2, hkb⟩ := validateColumns_ok a df_a df_b hv
  have hkb_out : out.hasCol a.key_b = true := by
    rw [hout, hasCol_setCol_other _ _ _ _ hne, hasCol_ensureTarget_other _ _ _ hne]
    exact hkb
  have hkeycol : out.getCol a.key_b = df_b.getCol a.key_b := by
    rw [hout, getCol_setCol_other _ _ _ _ hne, getCol_ensureTarget_other _ _ _ hne]
  have htgt_out : out.hasCol a.target_b = true := by
    rw [hout]
    exact hasCol_setCol_self _ _ _
  have hmatched : matchedValues df_a out a = matchedValues df_a df_b a := by
    unfold matchedValues
    rw [hkeycol]
  have hvalid2 : validateColumns a df_a out = Except.ok () := by
    unfold validateColumns
    simp [hka, hsa2, hkb_out]
  have hgetT : out.getCol a.target_b = matchedValues df_a df_b a := by
    rw [hout, getCol_setCol_self, hpol]
    rfl
  have hnodup_out : out.columns.Nodup := by
    rw [hout, columns_setCol]
    simp only [hasCol_ensureTarget_self, if_true]
    exact nodup_columns_ensureTarget df_b a.target_b hwf.1
  have hens : ensureTarget out a.target_b = out := by
    unfold ensureTarget
    simp [htgt_out]
  have hnrows_out : out.nrows = df_b.nrows := by
    rw [hout]
    have hlenM : (applyFill a.only_fill_empty
        ((ensureTarget df_b a.target_b).getCol a.target_b)
        (matchedValues df_a df_b a)).length = (ensureTarget df_b a.target_b).nrows := by
      rw [hpol]
      show (matchedValues df_a df_b a).length = _
      rw [length_matchedValues, nrows_ensureTarget df_b a.target_b hwf.2]
      exact getCol_length_of_rows df_b a.key_b hwf.2 hkb
    rw [nrows_setCol _ _ _ (rows_ensureTarget df_b a.target_b hwf.2) hlenM]
    exact nrows_ensureTarget df_b a.target_b hwf.2
  have hset : out.setCol a.target_b
      (applyFill a.only_fill_empty (out.getCol a.target_b) (matchedValues df_a df_b a))
      = out := by
    rw [hpol]
    show out.setCol a.target_b (matchedValues df_a df_b a) = out
    rw [← hgetT]
    exact setCol_getCol_id out a.target_b hnodup_out htgt_out
  unfold mainMerge
  rw [hvalid2]
  rw [hens, hmatched, hset, hnrows_out, hst]

/-- Witness for C8 amended on the spec section 8 Overwrite run: merging
again into the result reproduces it exactly. -/
theorem C8_idempotent_overwrite_witness :
    (argsEx false).only_fill_empty = false
  ∧ ("kb" : String) ≠ "t"
  ∧ dstEx.WF
  ∧ mainMerge (argsEx false) srcEx dstEx = Except.ok (outOverEx, MatchStats.mk 2 3)
  ∧ mainMerge (argsEx false) srcEx outOverEx = Except.ok (outOverEx, MatchStats.mk 2 3) :=
  ⟨rfl, by decide, by decide, by rfl,
    C8_idempotent_overwrite (argsEx false) srcEx dstEx outOverEx (MatchStats.mk 2 3)
      rfl (by decide) (by decide) (by rfl)⟩

end S1
